import Mathlib

/-!
Shallow embedding of the Met Éireann weather-warnings processing pipeline
(`_process_warnings_data` and `_should_include_warning` from `__init__.py`,
plus the lookup tables of `const.py`), together with proofs of the spec
claims about it.

Raw feed payloads are modelled as a JSON value type.  Python operations that
can raise (`.get` on a non-dict, `.lower()` on a non-string, iterating a
non-iterable, hashing an unhashable value) are modelled in the `Except`
monad, since the source has no record-level exception handling: any raise
inside `_process_warnings_data` aborts the whole call.
-/

/-- JSON values, the shape of the raw feed payload. -/
inductive Json where
  | null : Json
  | bool : Bool → Json
  | num : Int → Json
  | str : String → Json
  | arr : List Json → Json
  | obj : List (String × Json) → Json

/-- Numeric value of a Python bool or int, for equality purposes
(`True == 1` holds in Python). -/
def pyNumVal : Json → Option Int
  | Json.bool b => some (if b then 1 else 0)
  | Json.num n => some n
  | _ => none

/-- Python `==` restricted to the hashable values that can live in the sets
built by the aggregator (`None`, bools, ints, strings).  It is only ever
applied behind the `hashable` gate, so the value never is a list or a dict. -/
def pyEq (x y : Json) : Bool :=
  match x, y with
  | Json.null, Json.null => true
  | Json.str a, Json.str b => a == b
  | _, _ =>
    match pyNumVal x, pyNumVal y with
    | some a, some b => a == b
    | _, _ => false

/-- Python truthiness (`if not data`, `if warning["type"]`, ...). -/
def jsonTruthy : Json → Bool
  | Json.null => false
  | Json.bool b => b
  | Json.num n => n != 0
  | Json.str s => s != ""
  | Json.arr xs => !xs.isEmpty
  | Json.obj fs => !fs.isEmpty

/-- Python hashability: lists and dicts are unhashable, everything else here is. -/
def hashable : Json → Bool
  | Json.arr _ => false
  | Json.obj _ => false
  | _ => true

/-- Python iteration `for x in v`: lists yield elements, strings yield their
characters as one-character strings, dicts yield their keys; other values
raise `TypeError`. -/
def pyIter : Json → Except String (List Json)
  | Json.arr xs => Except.ok xs
  | Json.str s => Except.ok (s.toList.map (fun c => Json.str (String.mk [c])))
  | Json.obj fs => Except.ok (fs.map (fun p => Json.str p.1))
  | _ => Except.error "TypeError: not iterable"

/-- Lowercases a string character by character, the behaviour of Python
`str.lower()` on the feed values (same as `String.toLower`, written over the
character list so that it reduces definitionally). -/
def strLower (s : String) : String := String.mk (s.data.map Char.toLower)

/-- Python `v.lower()`: only strings have the method; anything else raises
`AttributeError`. -/
def pyLower : Json → Except String String
  | Json.str s => Except.ok (strLower s)
  | _ => Except.error "AttributeError: lower"

/-- Python `d.get(k)` on a dict: `None` (here `Json.null`) when the key is absent. -/
def dictGet (fs : List (String × Json)) (k : String) : Json :=
  (fs.lookup k).getD Json.null

/-- Python `d.get(k, default)` on a dict. -/
def dictGetD (fs : List (String × Json)) (k : String) (d : Json) : Json :=
  (fs.lookup k).getD d

/-- Python `set.add(x)`: raises `TypeError` on an unhashable element.  Sets are
modelled as duplicate-free lists in insertion order. -/
def addToSet (s : List Json) (x : Json) : Except String (List Json) :=
  if hashable x then Except.ok (if s.any (fun y => pyEq y x) then s else s ++ [x])
  else Except.error "TypeError: unhashable type"

/-- Adds every element of a list to a set, in order, as `set.update` does. -/
def setUpdateList (s : List Json) : List Json → Except String (List Json)
  | [] => Except.ok s
  | x :: xs =>
    match addToSet s x with
    | Except.error e => Except.error e
    | Except.ok s' => setUpdateList s' xs

/-- Python `set.update(v)`: iterates `v` and adds each element. -/
def setUpdate (s : List Json) (v : Json) : Except String (List Json) :=
  match pyIter v with
  | Except.error e => Except.error e
  | Except.ok xs => setUpdateList s xs

/-- Canonical warning, the dict built at lines 112-129 of `__init__.py`.
Every field except `status` is the raw JSON value returned by
`warning_data.get(...)` (so `Json.null` models Python `None` for an absent
field); `status` has already gone through `.lower()`, which is the only
operation of the builder that can raise. -/
structure Warning where
  id : Json
  cap_id : Json
  type : Json
  level : Json
  issued : Json
  updated : Json
  onset : Json
  expires : Json
  headline : Json
  description : Json
  instruction : Json
  regions : Json
  severity : Json
  certainty : Json
  urgency : Json
  status : String

/-- Builds the warning dict of lines 112-129 from an object record's fields
and the already-lowercased status.  `expires` is read from the key
`"expiry"`; `regions` defaults to the empty list. -/
def mkWarning (fs : List (String × Json)) (st : String) : Warning :=
  { id := dictGet fs "id"
    cap_id := dictGet fs "capId"
    type := dictGet fs "type"
    level := dictGet fs "level"
    issued := dictGet fs "issued"
    updated := dictGet fs "updated"
    onset := dictGet fs "onset"
    expires := dictGet fs "expiry"
    headline := dictGet fs "headline"
    description := dictGet fs "description"
    instruction := dictGet fs "instruction"
    regions := dictGetD fs "regions" (Json.arr [])
    severity := dictGet fs "severity"
    certainty := dictGet fs "certainty"
    urgency := dictGet fs "urgency"
    status := st }

/-- Normalizes one raw record into a `Warning`, as the loop body at lines
112-129 does.  A record that is not a dict raises `AttributeError` at the
first `.get` call; a present but non-string `status` raises inside
`.lower()`; otherwise the record never raises and missing fields fall back
to their defaults in `mkWarning`. -/
def normalizeRecord : Json → Except String Warning
  | Json.obj fs =>
    match pyLower (dictGetD fs "status" (Json.str "")) with
    | Except.error e => Except.error e
    | Except.ok st => Except.ok (mkWarning fs st)
  | _ => Except.error "AttributeError: get"

/-- Statuses that count as active (line 136 of `__init__.py`). -/
def activeStatuses : List String := ["warning", "actual", "active"]

/-- Tests `warning["status"] in ["warning", "actual", "active"]`. -/
def statusActive (w : Warning) : Bool :=
  activeStatuses.contains w.status

/-- Provider region-code → county table (`REGION_CODES` in `const.py`). -/
def REGION_CODES : List (String × String) :=
  [("EI01", "carlow"), ("EI02", "cavan"), ("EI03", "clare"), ("EI04", "cork"),
   ("EI06", "donegal"), ("EI07", "dublin"), ("EI10", "galway"), ("EI11", "kerry"),
   ("EI12", "kildare"), ("EI13", "kilkenny"), ("EI14", "leitrim"), ("EI15", "laois"),
   ("EI16", "limerick"), ("EI18", "longford"), ("EI19", "louth"), ("EI20", "mayo"),
   ("EI21", "meath"), ("EI22", "monaghan"), ("EI23", "offaly"), ("EI24", "roscommon"),
   ("EI25", "sligo"), ("EI26", "tipperary"), ("EI27", "waterford"),
   ("EI29", "westmeath"), ("EI30", "wexford"), ("EI31", "wicklow")]

/-- Region → counties table (`REGION_TO_COUNTIES` in `const.py`). -/
def REGION_TO_COUNTIES : List (String × List String) :=
  [("connacht", ["galway", "mayo", "roscommon", "sligo", "leitrim"]),
   ("leinster", ["dublin", "wicklow", "wexford", "carlow", "kilkenny", "laois",
                 "longford", "louth", "meath", "offaly", "westmeath", "kildare"]),
   ("munster", ["cork", "kerry", "limerick", "tipperary", "waterford", "clare"]),
   ("ulster", ["cavan", "donegal", "monaghan"])]

/-- Area scope configuration, the `area_config` dict set by
`async_setup_entry`.  The field values correspond to the `.get` defaults in
`_should_include_warning`: a missing configuration behaves as
`area_type = "whole_ireland"` with empty selections. -/
structure AreaConfig where
  area_type : String
  selected_regions : List String
  selected_counties : List String

/-- Python `REGION_CODES.get(code)` applied to one raw code value: raises
`TypeError` on an unhashable code, otherwise looks the code up (only a
string can match the table). -/
def regionCodeGet (code : Json) : Except String (Option String) :=
  if hashable code then
    match code with
    | Json.str s => Except.ok (REGION_CODES.lookup s)
    | _ => Except.ok none
  else Except.error "TypeError: unhashable type"

/-- Resolves the raw region codes to county names, as the loop at lines
173-177 does: a code whose lookup result is falsy (absent from the table or
the empty string) is dropped. -/
def warningCounties : List Json → Except String (List String)
  | [] => Except.ok []
  | c :: cs =>
    match regionCodeGet c with
    | Except.error e => Except.error e
    | Except.ok county =>
      match warningCounties cs with
      | Except.error e => Except.error e
      | Except.ok rest =>
        match county with
        | some ct => Except.ok (if ct = "" then rest else ct :: rest)
        | none => Except.ok rest

/-- The area filter `_should_include_warning` (lines 161-200).
`whole_ireland` returns before any region-code work; every other
`area_type` value (recognized or not) first iterates the regions value and
resolves counties, then `"regions"` and `"counties"` test the selections
and anything else falls through to `True`. -/
def shouldIncludeWarning (cfg : AreaConfig) (w : Warning) : Except String Bool :=
  if cfg.area_type = "whole_ireland" then Except.ok true
  else
    match pyIter w.regions with
    | Except.error e => Except.error e
    | Except.ok codes =>
      match warningCounties codes with
      | Except.error e => Except.error e
      | Except.ok counties =>
        if cfg.area_type = "regions" then
          Except.ok (cfg.selected_regions.any (fun r =>
            counties.any (fun ct => ((REGION_TO_COUNTIES.lookup r).getD []).contains ct)))
        else if cfg.area_type = "counties" then
          Except.ok (counties.any (fun ct => cfg.selected_counties.contains ct))
        else Except.ok true

/-- Priority of a warning level, from `WARNING_LEVELS` in `const.py`
(red 3, orange 2, yellow 1). -/
def WARNING_LEVELS_priority (s : String) : Option Nat :=
  if s = "red" then some 3
  else if s = "orange" then some 2
  else if s = "yellow" then some 1
  else none

/-- Priority of the running `highest_warning_level` value; `none` and an
unrecognized string rank below `yellow`. -/
def levelPriority : Option String → Nat
  | none => 0
  | some s => (WARNING_LEVELS_priority s).getD 0

/-- One step of the `highest_warning_level` update (lines 147-153 of
`__init__.py`), given the already-lowercased level string. -/
def updLevel (cur : Option String) (lv : String) : Option String :=
  if lv = "red" ∨ lv = "orange" ∨ lv = "yellow" then
    match cur with
    | none => some lv
    | some c =>
      if lv = "red" then some "red"
      else if lv = "orange" ∧ c ≠ "red" then some "orange"
      else some c
  else cur

/-- The `highest_warning_level` update for one active warning: line 146
reads `warning.get("level", "")`, which returns the stored `level` value
because the key is always present in the built dict, so `.lower()` raises
whenever that value is not a string (in particular when the raw record had
no `level` at all and the stored value is `None`). -/
def updateHighest (cur : Option String) (w : Warning) : Except String (Option String) :=
  match pyLower w.level with
  | Except.error e => Except.error e
  | Except.ok lv => Except.ok (updLevel cur lv)

/-- Summary counters of the snapshot (everything except the warnings list). -/
structure Stats where
  active_warnings_count : Nat
  warning_types : List Json
  regions_affected : List Json
  highest_warning_level : Option String

/-- Aggregated snapshot returned by `_process_warnings_data`.  The
`warning_types` and `regions_affected` sets are modelled as duplicate-free
lists in insertion order; the source converts them to lists before
returning. -/
structure Snapshot where
  warnings : List Warning
  active_warnings_count : Nat
  highest_warning_level : Option String
  warning_types : List Json
  regions_affected : List Json

/-- Summary counters of a snapshot. -/
def statsOf (s : Snapshot) : Stats :=
  { active_warnings_count := s.active_warnings_count
    warning_types := s.warning_types
    regions_affected := s.regions_affected
    highest_warning_level := s.highest_warning_level }

/-- Snapshot produced when there is nothing to process (lines 96-102). -/
def emptySnapshot : Snapshot :=
  { warnings := []
    active_warnings_count := 0
    highest_warning_level := none
    warning_types := []
    regions_affected := [] }

/-- The statistics update applied to one active warning (lines 137-153):
bump the count, add a truthy `type` to the type set, union a truthy
`regions` value into the affected set, update the highest level. -/
def stepStats (st : Stats) (w : Warning) : Except String Stats :=
  match (if jsonTruthy w.type then addToSet st.warning_types w.type
         else Except.ok st.warning_types) with
  | Except.error e => Except.error e
  | Except.ok types =>
    match (if jsonTruthy w.regions then setUpdate st.regions_affected w.regions
           else Except.ok st.regions_affected) with
    | Except.error e => Except.error e
    | Except.ok regs =>
      match updateHighest st.highest_warning_level w with
      | Except.error e => Except.error e
      | Except.ok hi =>
        Except.ok
          { active_warnings_count := st.active_warnings_count + 1
            warning_types := types
            regions_affected := regs
            highest_warning_level := hi }

/-- Folds the active-warning statistics update over a warning list. -/
def aggStatsFrom (st : Stats) : List Warning → Except String Stats
  | [] => Except.ok st
  | w :: ws =>
    match stepStats st w with
    | Except.error e => Except.error e
    | Except.ok st' => aggStatsFrom st' ws

/-- Statistics accumulated from scratch over a warning list. -/
def aggStats (ws : List Warning) : Except String Stats :=
  aggStatsFrom { active_warnings_count := 0, warning_types := [],
                 regions_affected := [], highest_warning_level := none } ws

/-- The loop body of `_process_warnings_data` for one raw record: normalize,
filter, append when included, and update the statistics when the status is
active. -/
def processRecord (cfg : AreaConfig) (st : Snapshot) (rec : Json) : Except String Snapshot :=
  match normalizeRecord rec with
  | Except.error e => Except.error e
  | Except.ok w =>
    match shouldIncludeWarning cfg w with
    | Except.error e => Except.error e
    | Except.ok inc =>
      if inc then
        if statusActive w then
          match stepStats (statsOf st) w with
          | Except.error e => Except.error e
          | Except.ok s =>
            Except.ok
              { warnings := st.warnings ++ [w]
                active_warnings_count := s.active_warnings_count
                highest_warning_level := s.highest_warning_level
                warning_types := s.warning_types
                regions_affected := s.regions_affected }
        else Except.ok { st with warnings := st.warnings ++ [w] }
      else Except.ok st

/-- The record loop of `_process_warnings_data`; the first raise aborts the
whole call, there is no per-record recovery. -/
def processList (cfg : AreaConfig) (st : Snapshot) : List Json → Except String Snapshot
  | [] => Except.ok st
  | rec :: rest =>
    match processRecord cfg st rec with
    | Except.error e => Except.error e
    | Except.ok st' => processList cfg st' rest

/-- `_process_warnings_data` (lines 94-159): a falsy payload returns the
empty snapshot immediately; a non-list payload yields an empty record list;
otherwise the records are processed in order. -/
def processWarningsData (cfg : AreaConfig) (data : Json) : Except String Snapshot :=
  if jsonTruthy data then
    match data with
    | Json.arr xs => processList cfg emptySnapshot xs
    | _ => Except.ok emptySnapshot
  else Except.ok emptySnapshot

/-- The area-filtering stage on its own: keeps the warnings that
`_should_include_warning` accepts, in order. -/
def exceptFilter (cfg : AreaConfig) : List Warning → Except String (List Warning)
  | [] => Except.ok []
  | w :: ws =>
    match shouldIncludeWarning cfg w with
    | Except.error e => Except.error e
    | Except.ok b =>
      match exceptFilter cfg ws with
      | Except.error e => Except.error e
      | Except.ok rest => Except.ok (if b then w :: rest else rest)

/-- Tests whether a JSON value is an object (a Python dict). -/
def isObj : Json → Bool
  | Json.obj _ => true
  | _ => false

/-- Tests that a record's `status` field, when present, is a string — the
condition under which `warning_data.get("status", "").lower()` cannot raise. -/
def statusFieldOk (fs : List (String × Json)) : Bool :=
  match fs.lookup "status" with
  | none => true
  | some (Json.str _) => true
  | some _ => false

/-- Values of `highest_warning_level` reachable from `None` by the update at
lines 147-153. -/
def reachableLevel (cur : Option String) : Prop :=
  cur = none ∨ cur = some "yellow" ∨ cur = some "orange" ∨ cur = some "red"

/-- Whole-country scope, the default `area_config`. -/
def wholeIrelandCfg : AreaConfig := ⟨"whole_ireland", [], []⟩

/-- The flat-shape record of the two-shape equivalence example. -/
def flatShapeRec : Json := Json.obj
  [("id", Json.str "1"), ("level", Json.str "orange"),
   ("status", Json.str "Warning"), ("regions", Json.arr [Json.str "EI04"])]

/-- The same fields nested under a `properties` key. -/
def nestedShapeRec : Json := Json.obj
  [("properties", Json.obj
    [("id", Json.str "1"), ("level", Json.str "orange"),
     ("status", Json.str "Warning"), ("regions", Json.arr [Json.str "EI04"])])]

/-- What the flat-shape example record normalizes to. -/
def flatShapeWarning : Warning :=
  ⟨Json.str "1", Json.null, Json.null, Json.str "orange", Json.null, Json.null,
   Json.null, Json.null, Json.null, Json.null, Json.null,
   Json.arr [Json.str "EI04"], Json.null, Json.null, Json.null, "warning"⟩

/-- What the nested-shape example record normalizes to: no field of the
inner `properties` object is extracted. -/
def nestedShapeWarning : Warning :=
  ⟨Json.null, Json.null, Json.null, Json.null, Json.null, Json.null,
   Json.null, Json.null, Json.null, Json.null, Json.null,
   Json.arr [], Json.null, Json.null, Json.null, ""⟩

/-- A well-formed active record used alongside a malformed one. -/
def goodRec : Json := Json.obj
  [("id", Json.str "w1"), ("type", Json.str "wind"), ("level", Json.str "red"),
   ("status", Json.str "actual"), ("regions", Json.arr [Json.str "EI01"])]

/-- The warning `goodRec` normalizes to. -/
def goodWarning : Warning :=
  ⟨Json.str "w1", Json.null, Json.str "wind", Json.str "red", Json.null, Json.null,
   Json.null, Json.null, Json.null, Json.null, Json.null,
   Json.arr [Json.str "EI01"], Json.null, Json.null, Json.null, "actual"⟩

/-- The by-region scope of the end-to-end example. -/
def leinsterCfg : AreaConfig := ⟨"regions", ["leinster"], []⟩

/-- An active record whose only region code is unknown to the catalog. -/
def unknownCodeRec : Json := Json.obj
  [("type", Json.str "wind"), ("level", Json.str "red"),
   ("status", Json.str "Warning"), ("regions", Json.arr [Json.str "ZZ99"])]

/-- The warning `unknownCodeRec` normalizes to. -/
def unknownCodeWarning : Warning :=
  ⟨Json.null, Json.null, Json.str "wind", Json.str "red", Json.null, Json.null,
   Json.null, Json.null, Json.null, Json.null, Json.null,
   Json.arr [Json.str "ZZ99"], Json.null, Json.null, Json.null, "warning"⟩

/-- A normalized warning whose raw `regions` value is the number `5`
(produced by the record `{"regions": 5}`). -/
def numRegionsWarning : Warning :=
  ⟨Json.null, Json.null, Json.null, Json.null, Json.null, Json.null, Json.null,
   Json.null, Json.null, Json.null, Json.null, Json.num 5, Json.null, Json.null,
   Json.null, ""⟩

/-- A warning with every field absent and an empty regions list. -/
def blankWarning : Warning :=
  ⟨Json.null, Json.null, Json.null, Json.null, Json.null, Json.null, Json.null,
   Json.null, Json.null, Json.null, Json.null, Json.arr [], Json.null, Json.null,
   Json.null, ""⟩

/-- The snapshot produced by processing `[goodRec]` under whole-country scope
(and equally under the Leinster by-region scope). -/
def goodSnapshot : Snapshot :=
  ⟨[goodWarning], 1, some "red", [Json.str "wind"], [Json.str "EI01"]⟩

/-- The snapshot produced by processing `[unknownCodeRec]` under
whole-country scope. -/
def unknownCodeSnapshot : Snapshot :=
  ⟨[unknownCodeWarning], 1, some "red", [Json.str "wind"], [Json.str "ZZ99"]⟩

/-- Invariant tying a snapshot's counters to the statistics recomputed from
its active warnings alone. -/
def snapInv (s : Snapshot) : Prop :=
  aggStats (s.warnings.filter statusActive) = Except.ok (statsOf s)

/-- The normalized warnings of a record list that pass the area filter, in
order and regardless of status — exactly the warnings the loop at lines
131-133 appends to the snapshot's `warnings` list. -/
def includedWarnings (cfg : AreaConfig) : List Json → Except String (List Warning)
  | [] => Except.ok []
  | rec :: rest =>
    match normalizeRecord rec with
    | Except.error e => Except.error e
    | Except.ok w =>
      match shouldIncludeWarning cfg w with
      | Except.error e => Except.error e
      | Except.ok inc =>
        match includedWarnings cfg rest with
        | Except.error e => Except.error e
        | Except.ok ws => Except.ok (if inc then w :: ws else ws)

/-- The filter-accepted warnings of a whole raw payload, mirroring the
payload dispatch of `_process_warnings_data` (falsy or non-list payloads
carry no records). -/
def includedOf (cfg : AreaConfig) (data : Json) : Except String (List Warning) :=
  if jsonTruthy data then
    match data with
    | Json.arr xs => includedWarnings cfg xs
    | _ => Except.ok []
  else Except.ok []

/-- A record whose status is not in the active set. -/
def lapsedRec : Json := Json.obj
  [("id", Json.str "w2"), ("type", Json.str "rain"), ("level", Json.str "yellow"),
   ("status", Json.str "Expired"), ("regions", Json.arr [Json.str "EI07"])]

/-- The warning `lapsedRec` normalizes to. -/
def lapsedWarning : Warning :=
  ⟨Json.str "w2", Json.null, Json.str "rain", Json.str "yellow", Json.null, Json.null,
   Json.null, Json.null, Json.null, Json.null, Json.null,
   Json.arr [Json.str "EI07"], Json.null, Json.null, Json.null, "expired"⟩

/-- The snapshot produced by processing `[goodRec, lapsedRec]` under
whole-country scope: the inactive warning is retained in `warnings` but
contributes to no statistic. -/
def mixedSnapshot : Snapshot :=
  ⟨[goodWarning, lapsedWarning], 1, some "red", [Json.str "wind"], [Json.str "EI01"]⟩



theorem normalizeRecord_nonobj (r : Json) (h : isObj r = false) :
    normalizeRecord r = Except.error "AttributeError: get" := by
  cases r <;> simp_all [isObj, normalizeRecord]

theorem processList_error_of_nonobj (cfg : AreaConfig) (r : Json) (post : List Json)
    (hr : isObj r = false) :
    ∀ (pre : List Json) (st : Snapshot),
      ∃ e, processList cfg st (pre ++ r :: post) = Except.error e := by
  intro pre
  induction pre with
  | nil =>
    intro st
    have hn := normalizeRecord_nonobj r hr
    refine ⟨"AttributeError: get", ?_⟩
    simp [processList, processRecord, hn]
  | cons p pre ih =>
    intro st
    simp only [List.cons_append, processList]
    cases h : processRecord cfg st p with
    | error e => exact ⟨e, rfl⟩
    | ok st' => exact ih st'

theorem pyEq_str (y : Json) (a : String) (h : pyEq y (Json.str a) = true) :
    y = Json.str a := by
  cases y <;> simp_all [pyEq, pyNumVal]

theorem addToSet_subset (s s' : List Json) (x : Json) (h : addToSet s x = Except.ok s')
    (y : Json) (hy : y ∈ s) : y ∈ s' := by
  unfold addToSet at h
  split at h
  · split at h <;> (cases h; simp [hy])
  · cases h

theorem addToSet_str_mem (s s' : List Json) (a : String)
    (h : addToSet s (Json.str a) = Except.ok s') : Json.str a ∈ s' := by
  simp only [addToSet, hashable, if_true] at h
  cases h
  split
  · rename_i hany
    rcases List.any_eq_true.mp hany with ⟨y, hy, hey⟩
    rcases pyEq_str y a hey
    exact hy
  · simp

theorem setUpdateList_subset (l : List Json) :
    ∀ (s s' : List Json), setUpdateList s l = Except.ok s' →
      ∀ y ∈ s, y ∈ s' := by
  induction l with
  | nil => intro s s' h y hy; cases h; exact hy
  | cons x xs ih =>
    intro s s' h y hy
    unfold setUpdateList at h
    cases hx : addToSet s x with
    | error e => rw [hx] at h; cases h
    | ok t => rw [hx] at h; exact ih t s' h y (addToSet_subset s t x hx y hy)

theorem setUpdateList_str_mem (l : List Json) :
    ∀ (s s' : List Json) (a : String), setUpdateList s l = Except.ok s' →
      Json.str a ∈ l → Json.str a ∈ s' := by
  induction l with
  | nil => intro s s' a _ hmem; cases hmem
  | cons x xs ih =>
    intro s s' a h hmem
    unfold setUpdateList at h
    cases hx : addToSet s x with
    | error e => rw [hx] at h; cases h
    | ok t =>
      rw [hx] at h
      rcases List.mem_cons.mp hmem with heq | hmem'
      · subst heq
        exact setUpdateList_subset xs t s' h _ (addToSet_str_mem s t a hx)
      · exact ih t s' a h hmem'

theorem warningCounties_unresolved (codes : List Json)
    (h : ∀ c ∈ codes, regionCodeGet c = Except.ok none) :
    warningCounties codes = Except.ok [] := by
  induction codes with
  | nil => rfl
  | cons c cs ih =>
    have hc := h c (List.mem_cons_self c cs)
    have ih' := ih (fun x hx => h x (List.mem_cons_of_mem c hx))
    simp [warningCounties, hc, ih']

theorem warningCounties_ok_of_hashable (codes : List Json)
    (h : ∀ c ∈ codes, hashable c = true) :
    ∃ cs, warningCounties codes = Except.ok cs := by
  induction codes with
  | nil => exact ⟨[], rfl⟩
  | cons c cs ih =>
    rcases ih (fun x hx => h x (List.mem_cons_of_mem c hx)) with ⟨rest, hrest⟩
    have hc : hashable c = true := h c (List.mem_cons_self c cs)
    cases c with
    | str s =>
      cases hl : REGION_CODES.lookup s with
      | none => exact ⟨rest, by simp [warningCounties, regionCodeGet, hashable, hl, hrest]⟩
      | some ct =>
        by_cases hct : ct = ""
        · exact ⟨rest, by simp [warningCounties, regionCodeGet, hashable, hl, hrest, hct]⟩
        · exact ⟨ct :: rest, by simp [warningCounties, regionCodeGet, hashable, hl, hrest, hct]⟩
    | null => exact ⟨rest, by simp [warningCounties, regionCodeGet, hashable, hrest]⟩
    | bool b => exact ⟨rest, by simp [warningCounties, regionCodeGet, hashable, hrest]⟩
    | num n => exact ⟨rest, by simp [warningCounties, regionCodeGet, hashable, hrest]⟩
    | arr xs => simp [hashable] at hc
    | obj fs => simp [hashable] at hc


theorem stepStats_ok_inv (st : Stats) (w : Warning) (st' : Stats)
    (h : stepStats st w = Except.ok st') :
    ∃ types regs hi,
      (if jsonTruthy w.type then addToSet st.warning_types w.type
       else Except.ok st.warning_types) = Except.ok types ∧
      (if jsonTruthy w.regions then setUpdate st.regions_affected w.regions
       else Except.ok st.regions_affected) = Except.ok regs ∧
      updateHighest st.highest_warning_level w = Except.ok hi ∧
      st' = ⟨st.active_warnings_count + 1, types, regs, hi⟩ := by
  unfold stepStats at h
  split at h
  · cases h
  · rename_i types htypes
    split at h
    · cases h
    · rename_i regs hregs
      split at h
      · cases h
      · rename_i hi hhi
        cases h
        exact ⟨types, regs, hi, htypes, hregs, hhi, rfl⟩

theorem processRecord_ok_inv (cfg : AreaConfig) (st : Snapshot) (rec : Json) (st1 : Snapshot)
    (h : processRecord cfg st rec = Except.ok st1) :
    ∃ w inc, normalizeRecord rec = Except.ok w ∧
      shouldIncludeWarning cfg w = Except.ok inc ∧
      ((inc = false ∧ st1 = st) ∨
       (inc = true ∧ statusActive w = false ∧
         st1 = { st with warnings := st.warnings ++ [w] }) ∨
       (inc = true ∧ statusActive w = true ∧
         ∃ s, stepStats (statsOf st) w = Except.ok s ∧
           st1 = ⟨st.warnings ++ [w], s.active_warnings_count,
                  s.highest_warning_level, s.warning_types, s.regions_affected⟩)) := by
  unfold processRecord at h
  split at h
  · cases h
  · rename_i w hw
    split at h
    · cases h
    · rename_i inc hinc
      refine ⟨w, inc, hw, hinc, ?_⟩
      by_cases hi : inc
      · rw [if_pos hi] at h
        by_cases ha : statusActive w
        · rw [if_pos ha] at h
          split at h
          · cases h
          · rename_i s hs
            cases h
            exact Or.inr (Or.inr ⟨hi, ha, s, hs, rfl⟩)
        · rw [if_neg ha] at h
          cases h
          exact Or.inr (Or.inl ⟨hi, Bool.not_eq_true _ ▸ (by simpa using ha), rfl⟩)
      · rw [if_neg hi] at h
        cases h
        exact Or.inl ⟨Bool.not_eq_true _ ▸ (by simpa using hi), rfl⟩

theorem aggStatsFrom_append (l : List Warning) :
    ∀ (st : Stats) (w : Warning),
      aggStatsFrom st (l ++ [w]) =
        match aggStatsFrom st l with
        | Except.error e => Except.error e
        | Except.ok st' => stepStats st' w := by
  induction l with
  | nil =>
    intro st w
    show aggStatsFrom st [w] = stepStats st w
    unfold aggStatsFrom
    cases hs : stepStats st w <;> simp [aggStatsFrom]
  | cons x xs ih =>
    intro st w
    show aggStatsFrom st (x :: (xs ++ [w])) = _
    unfold aggStatsFrom
    cases hs : stepStats st x <;> simp [ih]

theorem aggStatsFrom_ok_count (l : List Warning) :
    ∀ (st st' : Stats), aggStatsFrom st l = Except.ok st' →
      st'.active_warnings_count = st.active_warnings_count + l.length := by
  induction l with
  | nil => intro st st' h; cases h; simp
  | cons x xs ih =>
    intro st st' h
    unfold aggStatsFrom at h
    split at h
    · cases h
    · rename_i s hs
      rcases stepStats_ok_inv st x s hs with ⟨types, regs, hi, _, _, _, hsval⟩
      have := ih s st' h
      subst hsval
      simp at this
      simp [this]
      omega

theorem processRecord_snapInv (cfg : AreaConfig) (st : Snapshot) (rec : Json) (st1 : Snapshot)
    (h : processRecord cfg st rec = Except.ok st1) (hinv : snapInv st) : snapInv st1 := by
  rcases processRecord_ok_inv cfg st rec st1 h with
    ⟨w, inc, hw, hincl, hcase | hcase | hcase⟩
  · rcases hcase with ⟨_, rfl⟩
    exact hinv
  · rcases hcase with ⟨_, hact, rfl⟩
    unfold snapInv at *
    simpa [List.filter_append, hact, statsOf] using hinv
  · rcases hcase with ⟨_, hact, s, hs, rfl⟩
    unfold snapInv at *
    unfold aggStats at *
    simp only [List.filter_append, List.filter_cons, hact, List.filter_nil, if_true]
    rw [aggStatsFrom_append]
    simp only [statsOf] at hinv
    rw [hinv]
    simp only [statsOf] at hs
    simp [hs, statsOf]

theorem processList_snapInv (cfg : AreaConfig) (xs : List Json) :
    ∀ (st snap : Snapshot), processList cfg st xs = Except.ok snap →
      snapInv st → snapInv snap := by
  induction xs with
  | nil => intro st snap h hinv; cases h; exact hinv
  | cons x xs ih =>
    intro st snap h hinv
    unfold processList at h
    split at h
    · cases h
    · rename_i st' hst'
      exact ih st' snap h (processRecord_snapInv cfg st x st' hst' hinv)

theorem emptySnapshot_snapInv : snapInv emptySnapshot := rfl

theorem includedWarnings_processList (cfg : AreaConfig) (xs : List Json) :
    ∀ (st snap : Snapshot), processList cfg st xs = Except.ok snap →
      ∃ ws, includedWarnings cfg xs = Except.ok ws ∧
        snap.warnings = st.warnings ++ ws := by
  induction xs with
  | nil =>
    intro st snap h
    cases h
    exact ⟨[], rfl, (List.append_nil _).symm⟩
  | cons rec rest ih =>
    intro st snap h
    unfold processList at h
    split at h
    · cases h
    · rename_i st' hst'
      rcases processRecord_ok_inv cfg st rec st' hst' with ⟨w, inc, hw, hinc, hcase⟩
      rcases ih st' snap h with ⟨ws, hws, hsnap⟩
      rcases hcase with ⟨hf, rfl⟩ | ⟨htr, _, rfl⟩ | ⟨htr, _, s, _, rfl⟩
      · exact ⟨ws, by simp [includedWarnings, hw, hinc, hws, hf], hsnap⟩
      · refine ⟨w :: ws, by simp [includedWarnings, hw, hinc, hws, htr], ?_⟩
        simpa [List.append_assoc] using hsnap
      · refine ⟨w :: ws, by simp [includedWarnings, hw, hinc, hws, htr], ?_⟩
        simpa [List.append_assoc] using hsnap


theorem exceptFilter_mem_true (cfg : AreaConfig) (l : List Warning) :
    ∀ (l' : List Warning), exceptFilter cfg l = Except.ok l' →
      ∀ w ∈ l', shouldIncludeWarning cfg w = Except.ok true := by
  induction l with
  | nil => intro l' h w hw; cases h; cases hw
  | cons x xs ih =>
    intro l' h w hw
    unfold exceptFilter at h
    split at h
    · cases h
    · rename_i b hb
      split at h
      · cases h
      · rename_i rest hrest
        cases h
        by_cases hbv : b = true
        · rw [if_pos hbv] at hw
          rcases List.mem_cons.mp hw with heq | hw'
          · subst heq; rw [hbv] at hb; exact hb
          · exact ih rest hrest w hw'
        · rw [if_neg hbv] at hw
          exact ih rest hrest w hw

theorem exceptFilter_all_true (cfg : AreaConfig) (m : List Warning)
    (h : ∀ w ∈ m, shouldIncludeWarning cfg w = Except.ok true) :
    exceptFilter cfg m = Except.ok m := by
  induction m with
  | nil => rfl
  | cons x xs ih =>
    have hx := h x (List.mem_cons_self x xs)
    have ih' := ih (fun w hw => h w (List.mem_cons_of_mem x hw))
    simp [exceptFilter, hx, ih']


/-- C3: in any successfully produced snapshot, the `warnings` list is
exactly the normalized warnings accepted by the area filter — warnings with
an inactive status included — while the statistics are exactly those
recomputed from the active filtered warnings alone, and the active count
equals the number of filtered warnings with an active status. -/
theorem claim_C3 (cfg : AreaConfig) (data : Json) (snap : Snapshot)
    (h : processWarningsData cfg data = Except.ok snap) :
    includedOf cfg data = Except.ok snap.warnings ∧
    snap.active_warnings_count = (snap.warnings.filter statusActive).length ∧
    aggStats (snap.warnings.filter statusActive) = Except.ok (statsOf snap) := by
  have hpair : includedOf cfg data = Except.ok snap.warnings ∧ snapInv snap := by
    unfold processWarningsData at h
    by_cases ht : jsonTruthy data
    · rw [if_pos ht] at h
      cases data with
      | arr xs =>
        constructor
        · rcases includedWarnings_processList cfg xs emptySnapshot snap h with
            ⟨ws, hws, hsnap⟩
          have hsw : snap.warnings = ws := by simpa [emptySnapshot] using hsnap
          simp [includedOf, ht, hws, hsw]
        · exact processList_snapInv cfg xs emptySnapshot snap h emptySnapshot_snapInv
      | null => cases h; exact ⟨by simp [includedOf, emptySnapshot], emptySnapshot_snapInv⟩
      | bool b => cases h; exact ⟨by simp [includedOf, emptySnapshot], emptySnapshot_snapInv⟩
      | num n => cases h; exact ⟨by simp [includedOf, emptySnapshot], emptySnapshot_snapInv⟩
      | str s => cases h; exact ⟨by simp [includedOf, emptySnapshot], emptySnapshot_snapInv⟩
      | obj fs => cases h; exact ⟨by simp [includedOf, emptySnapshot], emptySnapshot_snapInv⟩
    · rw [if_neg ht] at h
      cases h
      exact ⟨by simp [includedOf, ht, emptySnapshot], emptySnapshot_snapInv⟩
  refine ⟨hpair.1, ?_, hpair.2⟩
  have hc := aggStatsFrom_ok_count (snap.warnings.filter statusActive)
    ⟨0, [], [], none⟩ (statsOf snap) hpair.2
  simpa [statsOf] using hc

/-- C3 witness: one active red wind warning and one filter-accepted but
inactive (expired) warning under whole-country scope — the inactive warning
is retained in `warnings` yet the statistics come from the active one
alone. -/
theorem claim_C3_witness :
    processWarningsData wholeIrelandCfg (Json.arr [goodRec, lapsedRec]) =
      Except.ok mixedSnapshot ∧
    (includedOf wholeIrelandCfg (Json.arr [goodRec, lapsedRec]) =
        Except.ok mixedSnapshot.warnings ∧
     mixedSnapshot.active_warnings_count =
        (mixedSnapshot.warnings.filter statusActive).length ∧
     aggStats (mixedSnapshot.warnings.filter statusActive) =
        Except.ok (statsOf mixedSnapshot)) ∧
    lapsedWarning ∈ mixedSnapshot.warnings ∧ statusActive lapsedWarning = false :=
  ⟨rfl, claim_C3 wholeIrelandCfg (Json.arr [goodRec, lapsedRec]) mixedSnapshot rfl,
   List.mem_cons_of_mem _ (List.mem_singleton_self _), rfl⟩

/-- C2 counterexample: a payload whose first record is the number `1` makes
processing raise instead of skipping the bad record and keeping `goodRec`. -/
theorem claim_C2_cex :
    processWarningsData wholeIrelandCfg (Json.arr [Json.num 1, goodRec]) =
      Except.error "AttributeError: get" := rfl

/-- C2 amended: a list payload containing a record that is not an object
makes the whole processing raise; no snapshot is produced from the
remaining records. -/
theorem claim_C2_thm (cfg : AreaConfig) (pre post : List Json) (r : Json)
    (hr : isObj r = false) :
    ∃ e, processWarningsData cfg (Json.arr (pre ++ r :: post)) = Except.error e := by
  rcases processList_error_of_nonobj cfg r post hr pre emptySnapshot with ⟨e, he⟩
  refine ⟨e, ?_⟩
  have ht : jsonTruthy (Json.arr (pre ++ r :: post)) = true := by
    simp [jsonTruthy]
  simp [processWarningsData, ht, he]

/-- C2 witness: the amended statement at the concrete payload `[1, goodRec]`. -/
theorem claim_C2_witness :
    isObj (Json.num 1) = false ∧
    (∃ e, processWarningsData wholeIrelandCfg
        (Json.arr ([] ++ Json.num 1 :: [goodRec])) = Except.error e) :=
  ⟨rfl, claim_C2_thm wholeIrelandCfg [] [goodRec] (Json.num 1) rfl⟩

/-- C8: filtering a list the area filter has already accepted wholesale
returns it unchanged — the filter is deterministic and idempotent. -/
theorem claim_C8 (cfg : AreaConfig) (l l' : List Warning)
    (h : exceptFilter cfg l = Except.ok l') : exceptFilter cfg l' = Except.ok l' :=
  exceptFilter_all_true cfg l' (exceptFilter_mem_true cfg l l' h)

/-- C8 witness: a singleton list already accepted by whole-country scope. -/
theorem claim_C8_witness :
    exceptFilter wholeIrelandCfg [blankWarning] = Except.ok [blankWarning] :=
  claim_C8 wholeIrelandCfg [blankWarning] [blankWarning] rfl

/-- C10 counterexample: under an unrecognized area type the filter raises
`TypeError` on a warning whose regions value is the number `5`, instead of
returning `True` for every warning. -/
theorem claim_C10_cex :
    normalizeRecord (Json.obj [("regions", Json.num 5)]) = Except.ok numRegionsWarning ∧
    shouldIncludeWarning ⟨"custom", [], []⟩ numRegionsWarning =
      Except.error "TypeError: not iterable" :=
  ⟨rfl, rfl⟩

/-- C10 amended: whenever the configured `area_type` is neither `"regions"`
nor `"counties"` (so `"whole_ireland"`, the missing-configuration default,
or any unrecognized value), the filter accepts every warning whose regions
value is a list of hashable entries. -/
theorem claim_C10_thm (cfg : AreaConfig) (w : Warning) (codes : List Json)
    (h1 : cfg.area_type ≠ "regions") (h2 : cfg.area_type ≠ "counties")
    (hreg : w.regions = Json.arr codes) (hcds : ∀ c ∈ codes, hashable c = true) :
    shouldIncludeWarning cfg w = Except.ok true := by
  unfold shouldIncludeWarning
  by_cases hw : cfg.area_type = "whole_ireland"
  · rw [if_pos hw]
  · rw [if_neg hw, hreg]
    rcases warningCounties_ok_of_hashable codes hcds with ⟨cs, hcs⟩
    simp [pyIter, hcs, h1, h2]

/-- C10 witness: the amended statement at an unrecognized area type and a
warning with an empty regions list. -/
theorem claim_C10_witness :
    ((⟨"custom", [], []⟩ : AreaConfig).area_type ≠ "regions") ∧
    ((⟨"custom", [], []⟩ : AreaConfig).area_type ≠ "counties") ∧
    blankWarning.regions = Json.arr [] ∧
    shouldIncludeWarning ⟨"custom", [], []⟩ blankWarning = Except.ok true :=
  ⟨by decide, by decide, rfl,
   claim_C10_thm ⟨"custom", [], []⟩ blankWarning [] (by decide) (by decide) rfl
     (fun c hc => absurd hc (List.not_mem_nil c))⟩

/-- C1 counterexample: the flat record and its `properties`-nested twin do
not normalize identically — `status` and `id` (fields both shapes carry)
come out as `"warning"`/`"1"` for the flat shape but `""`/null for the
nested one, because the normalizer never unwraps `properties`. -/
theorem claim_C1_cex :
    (normalizeRecord flatShapeRec).map Warning.status = Except.ok "warning" ∧
    (normalizeRecord nestedShapeRec).map Warning.status = Except.ok "" ∧
    (normalizeRecord flatShapeRec).map Warning.id = Except.ok (Json.str "1") ∧
    (normalizeRecord nestedShapeRec).map Warning.id = Except.ok Json.null ∧
    ("warning" : String) ≠ "" :=
  ⟨rfl, rfl, rfl, rfl, by decide⟩

/-- C1 amended: only the flat shape is understood; the record nested under
`properties` normalizes with every extracted field absent or empty. -/
theorem claim_C1_thm :
    normalizeRecord flatShapeRec = Except.ok flatShapeWarning ∧
    normalizeRecord nestedShapeRec = Except.ok nestedShapeWarning :=
  ⟨rfl, rfl⟩

/-- C5: a null or empty payload produces the zeroed snapshot. -/
theorem claim_C5 (cfg : AreaConfig) (d : Json)
    (h : d = Json.null ∨ d = Json.arr [] ∨ d = Json.obj [] ∨ d = Json.str "") :
    processWarningsData cfg d = Except.ok emptySnapshot ∧
    emptySnapshot.active_warnings_count = 0 ∧ emptySnapshot.warnings = [] ∧
    emptySnapshot.warning_types = [] ∧ emptySnapshot.regions_affected = [] ∧
    emptySnapshot.highest_warning_level = none := by
  rcases h with rfl | rfl | rfl | rfl <;> exact ⟨rfl, rfl, rfl, rfl, rfl, rfl⟩

/-- C5 witness: the null payload. -/
theorem claim_C5_witness :
    (Json.null = Json.null ∨ Json.null = Json.arr [] ∨ Json.null = Json.obj [] ∨
      Json.null = Json.str "") ∧
    (processWarningsData wholeIrelandCfg Json.null = Except.ok emptySnapshot ∧
     emptySnapshot.active_warnings_count = 0 ∧ emptySnapshot.warnings = [] ∧
     emptySnapshot.warning_types = [] ∧ emptySnapshot.regions_affected = [] ∧
     emptySnapshot.highest_warning_level = none) :=
  ⟨Or.inl rfl, claim_C5 wholeIrelandCfg Json.null (Or.inl rfl)⟩

/-- C9: the end-to-end example — one red/actual record for EI01 (carlow,
Leinster) under the Leinster by-region scope. -/
theorem claim_C9 :
    REGION_CODES.lookup "EI01" = some "carlow" ∧
    "carlow" ∈ (REGION_TO_COUNTIES.lookup "leinster").getD [] ∧
    processWarningsData leinsterCfg (Json.arr [goodRec]) = Except.ok goodSnapshot ∧
    goodSnapshot.active_warnings_count = 1 ∧
    goodSnapshot.highest_warning_level = some "red" ∧
    goodSnapshot.regions_affected = [Json.str "EI01"] ∧
    Json.str "wind" ∈ goodSnapshot.warning_types ∧
    goodWarning.type = Json.str "wind" :=
  ⟨rfl, by decide, rfl, rfl, rfl, rfl,
   show Json.str "wind" ∈ [Json.str "wind"] from List.mem_singleton_self _, rfl⟩


/-- C6: a warning none of whose region codes resolves in the catalog is
excluded by both the by-region and the by-county filter, while under
whole-country scope an active warning still gets its raw codes recorded in
`regions_affected`. -/
theorem claim_C6 (selr selc : List String) (w : Warning) (codes : List Json)
    (hreg : w.regions = Json.arr codes)
    (hun : ∀ c ∈ codes, regionCodeGet c = Except.ok none) :
    shouldIncludeWarning ⟨"regions", selr, selc⟩ w = Except.ok false ∧
    shouldIncludeWarning ⟨"counties", selr, selc⟩ w = Except.ok false ∧
    (∀ (rec : Json) (snap : Snapshot) (a : String),
      normalizeRecord rec = Except.ok w →
      processWarningsData wholeIrelandCfg (Json.arr [rec]) = Except.ok snap →
      statusActive w = true → Json.str a ∈ codes →
      Json.str a ∈ snap.regions_affected) := by
  have hwc : warningCounties codes = Except.ok [] := warningCounties_unresolved codes hun
  refine ⟨?_, ?_, ?_⟩
  · simp [shouldIncludeWarning, hreg, pyIter, hwc]
  · simp [shouldIncludeWarning, hreg, pyIter, hwc]
  · intro rec snap a hnorm hproc hact hmem
    have h1 : processList wholeIrelandCfg emptySnapshot [rec] = Except.ok snap := by
      simpa [processWarningsData, jsonTruthy] using hproc
    unfold processList at h1
    cases hpr : processRecord wholeIrelandCfg emptySnapshot rec with
    | error e => rw [hpr] at h1; cases h1
    | ok st' =>
      rw [hpr] at h1
      simp only [processList] at h1
      cases h1
      rcases processRecord_ok_inv _ _ _ _ hpr with
        ⟨w', inc, hw', hincl, hcase⟩
      rw [hnorm] at hw'
      injection hw' with hww
      subst hww
      have hwhole : shouldIncludeWarning wholeIrelandCfg w = Except.ok true := by
        simp [shouldIncludeWarning, wholeIrelandCfg]
      rw [hwhole] at hincl
      injection hincl with hinc
      rcases hcase with ⟨hf, _⟩ | ⟨_, hsf, _⟩ | ⟨_, _, s, hs, hsnap⟩
      · rw [← hinc] at hf; cases hf
      · rw [hact] at hsf; cases hsf
      · subst hsnap
        rcases stepStats_ok_inv (statsOf emptySnapshot) w s hs with
          ⟨types, regs, hi, _, hregs, _, hsval⟩
        subst hsval
        show Json.str a ∈ regs
        have htru : jsonTruthy w.regions = true := by
          rw [hreg]
          cases codes with
          | nil => cases hmem
          | cons c0 cs0 => rfl
        rw [htru] at hregs
        simp only [if_true] at hregs
        rw [hreg] at hregs
        have hregs' : setUpdateList (statsOf emptySnapshot).regions_affected codes =
            Except.ok regs := by
          simpa [setUpdate, pyIter] using hregs
        exact setUpdateList_str_mem codes _ regs a hregs' hmem


/-- C6 witness: the `ZZ99` warning is excluded by both scoped modes and its
raw code is recorded under whole-country scope. -/
theorem claim_C6_witness :
    unknownCodeWarning.regions = Json.arr [Json.str "ZZ99"] ∧
    shouldIncludeWarning ⟨"regions", ["leinster"], ["dublin"]⟩ unknownCodeWarning =
      Except.ok false ∧
    shouldIncludeWarning ⟨"counties", ["leinster"], ["dublin"]⟩ unknownCodeWarning =
      Except.ok false ∧
    processWarningsData wholeIrelandCfg (Json.arr [unknownCodeRec]) =
      Except.ok unknownCodeSnapshot ∧
    Json.str "ZZ99" ∈ unknownCodeSnapshot.regions_affected := by
  obtain ⟨h1, h2, h3⟩ := claim_C6 ["leinster"] ["dublin"] unknownCodeWarning
    [Json.str "ZZ99"] rfl
    (fun c hc => by rw [List.mem_singleton] at hc; subst hc; rfl)
  exact ⟨rfl, h1, h2, rfl,
    h3 unknownCodeRec unknownCodeSnapshot "ZZ99" rfl rfl rfl (List.mem_singleton_self _)⟩

/-- C7 counterexample: an object record whose `status` is the number `5`
makes normalization raise `AttributeError` inside `.lower()`. -/
theorem claim_C7_cex :
    normalizeRecord (Json.obj [("status", Json.num 5)]) =
      Except.error "AttributeError: lower" := rfl

/-- C7 amended: an object record whose `status`, when present, is a string
normalizes without raising; missing fields map to null or their empty
defaults, `status` is the lowercased raw status, and an absent status
becomes the empty string, which is not an active status. -/
theorem claim_C7_thm (fs : List (String × Json)) (hok : statusFieldOk fs = true) :
    ∃ w, normalizeRecord (Json.obj fs) = Except.ok w ∧
      w.status = (match fs.lookup "status" with
                  | some (Json.str s) => strLower s
                  | _ => "") ∧
      (fs.lookup "status" = none → w.status = "" ∧ statusActive w = false) ∧
      (fs.lookup "id" = none → w.id = Json.null) ∧
      (fs.lookup "level" = none → w.level = Json.null) ∧
      (fs.lookup "regions" = none → w.regions = Json.arr []) := by
  cases hlk : fs.lookup "status" with
  | none =>
    have hst : pyLower (dictGetD fs "status" (Json.str "")) = Except.ok "" := by
      simp [dictGetD, hlk, pyLower, strLower]
    refine ⟨mkWarning fs "", ?_, ?_, ?_, ?_, ?_, ?_⟩
    · simp [normalizeRecord, hst]
    · simp [mkWarning, hlk]
    · intro _; exact ⟨rfl, rfl⟩
    · intro hid; simp [mkWarning, dictGet, hid]
    · intro hlv; simp [mkWarning, dictGet, hlv]
    · intro hrg; simp [mkWarning, dictGetD, hrg]
  | some v =>
    cases v with
    | str s =>
      have hst : pyLower (dictGetD fs "status" (Json.str "")) =
          Except.ok (strLower s) := by
        simp [dictGetD, hlk, pyLower]
      refine ⟨mkWarning fs (strLower s), ?_, ?_, ?_, ?_, ?_, ?_⟩
      · simp [normalizeRecord, hst]
      · simp [mkWarning, hlk]
      · intro hnone; cases hnone
      · intro hid; simp [mkWarning, dictGet, hid]
      · intro hlv; simp [mkWarning, dictGet, hlv]
      · intro hrg; simp [mkWarning, dictGetD, hrg]
    | null => simp [statusFieldOk, hlk] at hok
    | bool b => simp [statusFieldOk, hlk] at hok
    | num n => simp [statusFieldOk, hlk] at hok
    | arr xs => simp [statusFieldOk, hlk] at hok
    | obj gs => simp [statusFieldOk, hlk] at hok

/-- C7 witness: the amended statement at the record with only a `level`. -/
theorem claim_C7_witness :
    statusFieldOk [("level", Json.str "Red")] = true ∧
    (∃ w, normalizeRecord (Json.obj [("level", Json.str "Red")]) = Except.ok w ∧
      w.status = (match List.lookup "status" [("level", Json.str "Red")] with
                  | some (Json.str s) => strLower s
                  | _ => "") ∧
      (List.lookup "status" [("level", Json.str "Red")] = none →
        w.status = "" ∧ statusActive w = false) ∧
      (List.lookup "id" [("level", Json.str "Red")] = none → w.id = Json.null) ∧
      (List.lookup "level" [("level", Json.str "Red")] = none → w.level = Json.null) ∧
      (List.lookup "regions" [("level", Json.str "Red")] = none →
        w.regions = Json.arr [])) :=
  ⟨rfl, claim_C7_thm [("level", Json.str "Red")] rfl⟩


theorem updLevel_reachable (cur : Option String) (lv : String) (h : reachableLevel cur) :
    reachableLevel (updLevel cur lv) := by
  unfold reachableLevel at *
  unfold updLevel
  by_cases h1 : lv = "red"
  · subst h1; rcases h with rfl | rfl | rfl | rfl <;> simp
  · by_cases h2 : lv = "orange"
    · subst h2; rcases h with rfl | rfl | rfl | rfl <;> simp
    · by_cases h3 : lv = "yellow"
      · subst h3; rcases h with rfl | rfl | rfl | rfl <;> simp
      · rcases h with rfl | rfl | rfl | rfl <;> simp [h1, h2, h3]

theorem foldl_updLevel_char (lvs : List String) :
    ∀ (cur : Option String), reachableLevel cur →
      List.foldl updLevel cur lvs =
        if "red" ∈ lvs ∨ cur = some "red" then some "red"
        else if "orange" ∈ lvs ∨ cur = some "orange" then some "orange"
        else if "yellow" ∈ lvs ∨ cur = some "yellow" then some "yellow"
        else cur := by
  induction lvs with
  | nil =>
    intro cur h
    rcases h with rfl | rfl | rfl | rfl <;> simp
  | cons lv lvs ih =>
    intro cur h
    rw [List.foldl_cons, ih _ (updLevel_reachable cur lv h)]
    by_cases h1 : lv = "red"
    · subst h1
      rcases h with rfl | rfl | rfl | rfl <;> simp [updLevel, List.mem_cons]
    · by_cases h2 : lv = "orange"
      · subst h2
        rcases h with rfl | rfl | rfl | rfl <;> simp [updLevel, List.mem_cons]
      · by_cases h3 : lv = "yellow"
        · subst h3
          rcases h with rfl | rfl | rfl | rfl <;> simp [updLevel, List.mem_cons]
        · have e1 : ¬("red" = lv) := fun hh => h1 hh.symm
          have e2 : ¬("orange" = lv) := fun hh => h2 hh.symm
          have e3 : ¬("yellow" = lv) := fun hh => h3 hh.symm
          rcases h with rfl | rfl | rfl | rfl <;>
            simp [updLevel, List.mem_cons, h1, h2, h3, e1, e2, e3]

theorem levelPriority_le_three (cur : Option String) : levelPriority cur ≤ 3 := by
  cases cur with
  | none => exact Nat.zero_le _
  | some c =>
    simp only [levelPriority, WARNING_LEVELS_priority]
    split_ifs <;> simp

theorem updLevel_mono (cur : Option String) (lv : String) :
    levelPriority cur ≤ levelPriority (updLevel cur lv) := by
  cases cur with
  | none => exact Nat.zero_le _
  | some c =>
    unfold updLevel
    by_cases h1 : lv = "red"
    · subst h1
      simp only [levelPriority, WARNING_LEVELS_priority]
      split_ifs <;> simp_all
    · by_cases h2 : lv = "orange"
      · subst h2
        simp only [levelPriority, WARNING_LEVELS_priority]
        split_ifs <;> simp_all
      · by_cases h3 : lv = "yellow"
        · subst h3
          simp only [levelPriority, WARNING_LEVELS_priority]
          split_ifs <;> simp_all
        · simp [h1, h2, h3]

/-- C4: the highest-level reduction is red if any level is red, else orange
if any, else yellow if any, else none; one update step never lowers the
priority; and the fold is invariant under permutation of its input. -/
theorem claim_C4 (lvs lvs' : List String) (hperm : List.Perm lvs lvs') :
    (List.foldl updLevel none lvs =
      if "red" ∈ lvs then some "red"
      else if "orange" ∈ lvs then some "orange"
      else if "yellow" ∈ lvs then some "yellow"
      else none) ∧
    (∀ (cur : Option String) (lv : String),
      levelPriority cur ≤ levelPriority (updLevel cur lv)) ∧
    List.foldl updLevel none lvs = List.foldl updLevel none lvs' := by
  have hchar : ∀ (m : List String), List.foldl updLevel none m =
      if "red" ∈ m then some "red"
      else if "orange" ∈ m then some "orange"
      else if "yellow" ∈ m then some "yellow"
      else none := by
    intro m
    have hm := foldl_updLevel_char m none (Or.inl rfl)
    simpa using hm
  refine ⟨hchar lvs, fun cur lv => updLevel_mono cur lv, ?_⟩
  rw [hchar lvs, hchar lvs']
  simp only [hperm.mem_iff]

/-- C4 witness: `{yellow, orange}` folds to `orange` in either order. -/
theorem claim_C4_witness :
    List.Perm ["yellow", "orange"] ["orange", "yellow"] ∧
    List.foldl updLevel none ["yellow", "orange"] =
      List.foldl updLevel none ["orange", "yellow"] ∧
    List.foldl updLevel none ["yellow", "orange"] = some "orange" :=
  ⟨List.Perm.swap "orange" "yellow" [],
   (claim_C4 ["yellow", "orange"] ["orange", "yellow"]
      (List.Perm.swap "orange" "yellow" [])).2.2,
   rfl⟩
